import Mathlib

/-!
Verification of the ThreadManager worker-pool scheduler.

This file gives a shallow embedding of the scheduler's data model and
operations (`ThreadManager::Impl` together with its `Worker` loop, the
timed `Guard` over `Mutex`, and the expiration sweep `removeExpired`),
and proves or refutes a fixed list of claims about them.

Modelling conventions:
  * `size_t` counters are modelled as `Nat`; the only decrements the code
    performs on values that can genuinely be zero are the `--workerCount_`
    statements in the worker loop, which are modelled with the exact
    wrap-around semantics of a 64-bit unsigned decrement (`dec64`).
  * steady-clock instants are `Nat` milliseconds; a task's optional
    absolute deadline is an `Option Nat`.
  * a user work item (`Runnable`) is identified by an opaque `Nat` id;
    the expire callback is modelled by the list of work-item ids it is
    invoked with, together with the flag saying whether it is set.
  * the mutex environment of a single `add` call is summarised by
    `avail`, the number of milliseconds until the mutex would become
    free for this caller; `lock()` always succeeds (after waiting),
    `trylock()` succeeds iff `avail = 0`, and `timedlock(ms)` succeeds
    iff `avail ≤ ms`.  This is exactly the contract of `Mutex`.
-/

namespace ThreadManager

/-- Lifecycle states of the manager, from `ThreadManager::STATE`. -/
inductive STATE
  | UNINITIALIZED
  | STARTING
  | STARTED
  | JOINING
  | STOPPING
  | STOPPED
deriving DecidableEq, Repr

/-- States of a `ThreadManager::Task`. -/
inductive TaskState
  | WAITING
  | EXECUTING
  | TIMEDOUT
  | COMPLETE
deriving DecidableEq, Repr

/-- A queued task: the id of the wrapped `Runnable` and the optional
absolute expiration instant (`expireTime_`), in milliseconds.  Tasks in
the queue are always in state `WAITING`, so the state field is not
stored per entry. -/
structure Task where
  rid : Nat
  deadline : Option Nat
deriving DecidableEq, Repr

/-- Task construction from `Task(runnable, expiration)`: the deadline is
`now + expiration` when `expiration ≠ 0`, and absent otherwise. -/
def mkTask (rid now expiration : Nat) : Task :=
  ⟨rid, if expiration = 0 then none else some (now + expiration)⟩

/-- Whether a task's deadline strictly precedes `now`, from the test
`(*it)->getExpireTime() && *((*it)->getExpireTime()) < now`. -/
def isExpiredTask (t : Task) (now : Nat) : Bool :=
  match t.deadline with
  | some d => decide (d < now)
  | none => false

/-- The state a popped `WAITING` task is marked with by the worker:
`TIMEDOUT` when its deadline is past, `EXECUTING` otherwise. -/
def markAtPop (t : Task) (now : Nat) : TaskState :=
  if isExpiredTask t now then TaskState.TIMEDOUT else TaskState.EXECUTING

/-- Program counter of a worker thread, between critical sections of its
`run` loop: `spawned` = created by `addWorker` but not yet entered
`run`; `inLoop` = at the head of the outer `while (active)` loop;
`idleWaiting` = has incremented `idleCount_` and is blocked in
`monitor_.wait()`; `running` = executing a task with the mutex
released; `dead` = has done its final accounting and exited. -/
inductive WPC
  | spawned
  | inLoop
  | idleWaiting
  | running
  | dead
deriving DecidableEq, Repr

/-- The shared state of `ThreadManager::Impl`, together with the program
counters of its worker threads and the number of `stop` callers that
have performed the `JOINING` transition and are blocked in the
`removeWorkersUnderLock` barrier (needed to model the later
`state_ = STOPPED` assignment of the same `stop` call). -/
structure Impl where
  state : STATE
  workerCount : Nat
  workerMaxCount : Nat
  idleCount : Nat
  pendingTaskCountMax : Nat
  expiredCount : Nat
  hasExpireCallback : Bool
  hasThreadFactory : Bool
  tasks : List Task
  workers : List WPC
  stoppers : Nat
deriving DecidableEq, Repr

/-- The state of a freshly constructed `ThreadManager::Impl()`. -/
def implInit : Impl :=
  { state := STATE.UNINITIALIZED
    workerCount := 0
    workerMaxCount := 0
    idleCount := 0
    pendingTaskCountMax := 0
    expiredCount := 0
    hasExpireCallback := false
    hasThreadFactory := false
    tasks := []
    workers := []
    stoppers := 0 }

/-- A 64-bit unsigned decrement, the semantics of `--x` on a `size_t`:
subtracting one wraps around at zero. -/
def dec64 (n : Nat) : Nat := (n + (2 ^ 64 - 1)) % 2 ^ 64

/-- The `removeExpired` sweep over the queue, front to back.  Returns
the remaining queue and the removed tasks in removal order.  With
`justOne = true` the sweep stops after the first removal (the admission
sweep in `add`); with `justOne = false` it removes every expired task
(`removeExpiredTasks`). -/
def removeExpiredGo (justOne : Bool) (now : Nat) : List Task → List Task × List Task
  | [] => ([], [])
  | t :: ts =>
    if isExpiredTask t now then
      if justOne then (ts, [t])
      else
        let p := removeExpiredGo justOne now ts
        (p.1, t :: p.2)
    else
      let p := removeExpiredGo justOne now ts
      (t :: p.1, p.2)

/-- `ThreadManager::Impl::removeExpired(justOne)`: sweeps the queue at
instant `now`, incrementing `expiredCount_` once per removed task, and
invoking `expireCallback_` on each removed task's runnable when the
callback is set.  Returns the updated manager and the list of runnable
ids the callback was invoked with. -/
def removeExpired (m : Impl) (justOne : Bool) (now : Nat) : Impl × List Nat :=
  let p := removeExpiredGo justOne now m.tasks
  ({ m with tasks := p.1, expiredCount := m.expiredCount + p.2.length },
   if m.hasExpireCallback then p.2.map Task.rid else [])

/-- The public `removeExpiredTasks()`, which is `removeExpired(false)`. -/
def removeExpiredTasks (m : Impl) (now : Nat) : Impl × List Nat :=
  removeExpired m false now

/-- Acquisition result of `Guard g(mutex_, timeout)` when the mutex
becomes free for this caller after `avail` milliseconds:
`timeout == 0` calls `lock()` and blocks until the mutex is free;
`timeout < 0` calls `trylock()`, succeeding only when it is free now;
`timeout > 0` calls `timedlock(timeout)`, succeeding iff the mutex
becomes free within `timeout` milliseconds. -/
def guardAcquired (avail : Nat) (timeout : Int) : Bool :=
  if timeout = 0 then true
  else if timeout < 0 then decide (avail = 0)
  else decide ((avail : Int) ≤ timeout)

/-- `ThreadManager::Impl::canSleep()`: the caller may block in `add`
iff its thread id is not a key of `idMap_`. -/
def canSleep (callerInIdMap : Bool) : Bool := !callerInIdMap

/-- Error kinds surfaced by the manager, per the error-handling design:
every `throw` in `add` that is not the not-started check is the
backlog-exceeded (`TooManyPendingTasks`) error. -/
inductive ErrKind
  | tooManyPendingTasks
  | notStarted
deriving DecidableEq, Repr

/-- Outcome of a single call to `add`: an error (with the manager state
as mutated so far, since the admission sweep may have run before the
throw), a suspension on the `maxMonitor_` wait loop, or a successful
enqueue. -/
inductive AddOutcome
  | err (k : ErrKind) (m : Impl)
  | blocksOnMax (m : Impl)
  | enqueued (m : Impl)
deriving DecidableEq, Repr

/-- `ThreadManager::Impl::add(value, timeout, expiration)` up to its
first suspension or return.  `callerInIdMap` says whether the calling
thread is one of the manager's workers, `avail` is the time until the
mutex is free for this caller, `now` is the current instant and `rid`
identifies the work item. -/
def add (m : Impl) (callerInIdMap : Bool) (timeout : Int) (avail now rid expiration : Nat) :
    AddOutcome :=
  if guardAcquired avail timeout = false then .err .tooManyPendingTasks m
  else if m.state ≠ STATE.STARTED then .err .notStarted m
  else
    let m1 :=
      if 0 < m.pendingTaskCountMax ∧ m.pendingTaskCountMax ≤ m.tasks.length then
        (removeExpired m true now).1
      else m
    if 0 < m1.pendingTaskCountMax ∧ m1.pendingTaskCountMax ≤ m1.tasks.length then
      if canSleep callerInIdMap = true ∧ 0 ≤ timeout then .blocksOnMax m1
      else .err .tooManyPendingTasks m1
    else .enqueued { m1 with tasks := m1.tasks ++ [mkTask rid now expiration] }

/-- How `removeWorkersUnderLock` wakes sleepers on the `monitor_`
(waitQueue) monitor: either `n` single notifies or one `notifyAll`. -/
inductive NotifyAction
  | notifyN (n : Nat)
  | broadcast
deriving DecidableEq, Repr

/-- Result of `removeWorkersUnderLock`: whether it threw, the manager
state after the `workerMaxCount_` update, and the wake-up action
performed on the waitQueue monitor (absent on failure). -/
structure RWResult where
  failed : Bool
  m : Impl
  action : Option NotifyAction
deriving DecidableEq, Repr

/-- The head of `ThreadManager::Impl::removeWorkersUnderLock(value)`:
throws when `value > workerMaxCount_`, otherwise lowers
`workerMaxCount_` by `value` and notifies the waitQueue monitor `value`
times when `idleCount_ > value`, else broadcasts.  (The subsequent
barrier wait and dead-worker drain do not change these fields.) -/
def removeWorkersUnderLock (m : Impl) (value : Nat) : RWResult :=
  if m.workerMaxCount < value then ⟨true, m, none⟩
  else
    ⟨false, { m with workerMaxCount := m.workerMaxCount - value },
      some (if value < m.idleCount then NotifyAction.notifyN value else NotifyAction.broadcast)⟩

/-- `ThreadManager::Impl::removeWorker(value)`: takes the lock (plain
`Guard`, untimed) and calls `removeWorkersUnderLock(value)`. -/
def removeWorker (m : Impl) (value : Nat) : RWResult :=
  removeWorkersUnderLock m value

/-- Outcome of `ThreadManager::Impl::start()`: a normal return carrying
the new state and whether `monitor_.notifyAll()` was performed, the
no-factory throw, or a suspension in the `while (state_ == STARTING)`
wait loop. -/
inductive StartOutcome
  | ret (st : STATE) (broadcasted : Bool)
  | errNoFactory
  | waitsStarting
deriving DecidableEq, Repr

/-- `ThreadManager::Impl::start()`: returns at once when `STOPPED`;
from `UNINITIALIZED` throws when no factory is set, else assigns
`STARTED` and broadcasts on `monitor_`; afterwards waits only while the
state is `STARTING`. -/
def start (st : STATE) (hasFactory : Bool) : StartOutcome :=
  if st = STATE.STOPPED then .ret st false
  else if st = STATE.UNINITIALIZED then
    (if hasFactory then .ret STATE.STARTED true else .errNoFactory)
  else if st = STATE.STARTING then .waitsStarting
  else .ret st false

/-- The worker loop's activity predicate `Worker::isActive()`:
`(workerCount_ <= workerMaxCount_) || (state_ == JOINING && !tasks_.empty())`. -/
def isActive (m : Impl) : Bool :=
  decide (m.workerCount ≤ m.workerMaxCount) ||
    (decide (m.state = STATE.JOINING) && !m.tasks.isEmpty)

/-- The accounting the worker performs on a task it popped and marked
`TIMEDOUT`: when `expireCallback_` is set the callback is invoked and
`expiredCount_` is incremented; otherwise the task is dropped with no
accounting. -/
def timedoutAccount (hasCb : Bool) (expired : Nat) : Nat :=
  if hasCb then expired + 1 else expired

/-- Interleaved small-step semantics of the manager, its worker threads
and its callers.  Each constructor is a contiguous segment of code
executed while holding the shared `mutex_`; the boundaries are lock
acquisitions, monitor waits (which release the mutex) and the explicit
`unlock`/`lock` pair around a task's `run()`.  Monitor notifications
move no state and waking from a wait is always enabled (condition
variables permit spurious wakeups), so notify calls are not recorded.
The `stoppers` counter carries a `stop` caller from its `JOINING`
assignment across the `removeWorkersUnderLock` barrier to its final
`state_ = STOPPED` assignment. -/
inductive Step : Impl → Impl → Prop
  /-- `threadFactory(value)` setter: installs a factory.  (Replacement
  with a mismatched detached disposition throws without mutating.) -/
  | setFactory (s : Impl) :
      Step s { s with hasThreadFactory := true }
  /-- `pendingTaskCountMax(value)` setter. -/
  | setPendingTaskCountMax (s : Impl) (v : Nat) :
      Step s { s with pendingTaskCountMax := v }
  /-- `setExpireCallback(fn)`: installs or clears the callback. -/
  | setExpireCallback (s : Impl) (b : Bool) :
      Step s { s with hasExpireCallback := b }
  /-- `start()` from `UNINITIALIZED` with a factory set: assigns
  `STARTED` (and broadcasts `monitor_`).  All other `start` paths from
  reachable states leave the fields unchanged. -/
  | startBegin (s : Impl) :
      s.state = STATE.UNINITIALIZED → s.hasThreadFactory = true →
      Step s { s with state := STATE.STARTED }
  /-- `stop()` when `doStop` is false (state in `STOPPING`, `JOINING`
  or `STOPPED`): only the trailing `state_ = STOPPED` assignment runs. -/
  | stopNoop (s : Impl) :
      (s.state = STATE.STOPPING ∨ s.state = STATE.JOINING ∨ s.state = STATE.STOPPED) →
      Step s { s with state := STATE.STOPPED }
  /-- `stop()` when `doStop` is true and the `removeWorkersUnderLock
  (workerCount_)` guard passes: assigns `JOINING`, lowers
  `workerMaxCount_` by `workerCount_`, notifies sleepers and enters the
  barrier; the caller is recorded in `stoppers`. -/
  | stopJoin (s : Impl) :
      ¬(s.state = STATE.STOPPING ∨ s.state = STATE.JOINING ∨ s.state = STATE.STOPPED) →
      s.workerCount ≤ s.workerMaxCount →
      Step s { s with state := STATE.JOINING,
                      workerMaxCount := s.workerMaxCount - s.workerCount,
                      stoppers := s.stoppers + 1 }
  /-- `stop()` when `doStop` is true but `workerCount_ >
  workerMaxCount_`: `removeWorkersUnderLock` throws after the `JOINING`
  assignment, so the state remains `JOINING` and the final assignment
  is never reached. -/
  | stopJoinThrow (s : Impl) :
      ¬(s.state = STATE.STOPPING ∨ s.state = STATE.JOINING ∨ s.state = STATE.STOPPED) →
      s.workerMaxCount < s.workerCount →
      Step s { s with state := STATE.JOINING }
  /-- a `stop` caller's barrier `while (workerCount_ != workerMaxCount_)`
  opens and the caller performs the dead-worker drain and the final
  `state_ = STOPPED` assignment. -/
  | stopComplete (s : Impl) :
      0 < s.stoppers → s.workerCount = s.workerMaxCount →
      Step s { s with state := STATE.STOPPED, stoppers := s.stoppers - 1 }
  /-- `addWorker(n)`: raises `workerMaxCount_` by `n` and starts `n`
  new worker threads, which have not yet entered their run loop.
  (Requires a factory: `threadFactory_->newThread` is dereferenced.) -/
  | addWorkerBegin (s : Impl) (n : Nat) :
      s.hasThreadFactory = true →
      Step s { s with workerMaxCount := s.workerMaxCount + n,
                      workers := s.workers ++ List.replicate n WPC.spawned }
  /-- `removeWorker(n)` head: when `n ≤ workerMaxCount_`, lowers
  `workerMaxCount_` by `n` and notifies sleepers; the caller then waits
  at the barrier.  (When `n > workerMaxCount_` it throws without
  mutating.) -/
  | removeWorkerBegin (s : Impl) (n : Nat) :
      n ≤ s.workerMaxCount →
      Step s { s with workerMaxCount := s.workerMaxCount - n }
  /-- worker entry, admission succeeds: `workerCount_ <
  workerMaxCount_`, so the worker increments `workerCount_` and
  proceeds to the top of its outer loop. -/
  | wEnterActive (s : Impl) (i : Nat) :
      s.workers.get? i = some WPC.spawned →
      s.workerCount < s.workerMaxCount →
      Step s { s with workerCount := s.workerCount + 1,
                      workers := s.workers.set i WPC.inLoop }
  /-- worker entry, admission fails: `workerCount_ ≥ workerMaxCount_`,
  so the outer loop is skipped entirely and the worker runs its final
  accounting, decrementing `workerCount_` it never incremented (the
  decrement is a wrapping `size_t` decrement). -/
  | wEnterInactive (s : Impl) (i : Nat) :
      s.workers.get? i = some WPC.spawned →
      s.workerMaxCount ≤ s.workerCount →
      Step s { s with workerCount := dec64 s.workerCount,
                      workers := s.workers.set i WPC.dead }
  /-- worker at loop head, active with an empty queue: increments
  `idleCount_` and blocks in `monitor_.wait()`, releasing the mutex. -/
  | wGoIdle (s : Impl) (i : Nat) :
      s.workers.get? i = some WPC.inLoop →
      isActive s = true → s.tasks = [] →
      Step s { s with idleCount := s.idleCount + 1,
                      workers := s.workers.set i WPC.idleWaiting }
  /-- an idle worker wakes from `monitor_.wait()`: recomputes `active`
  and decrements `idleCount_`; its next decision is the loop-head
  decision. -/
  | wWake (s : Impl) (i : Nat) :
      s.workers.get? i = some WPC.idleWaiting →
      Step s { s with idleCount := dec64 s.idleCount,
                      workers := s.workers.set i WPC.inLoop }
  /-- worker at loop head, no longer active: exits the loop, adds its
  thread to `deadWorkers_` and decrements `workerCount_`. -/
  | wExit (s : Impl) (i : Nat) :
      s.workers.get? i = some WPC.inLoop →
      isActive s = false →
      Step s { s with workerCount := dec64 s.workerCount,
                      workers := s.workers.set i WPC.dead }
  /-- worker at loop head, active with a non-empty queue whose head is
  not expired at `now`: pops it, marks it `EXECUTING`, releases the
  mutex and runs it. -/
  | wPopExec (s : Impl) (i now : Nat) (t : Task) (rest : List Task) :
      s.workers.get? i = some WPC.inLoop →
      isActive s = true → s.tasks = t :: rest →
      markAtPop t now = TaskState.EXECUTING →
      Step s { s with tasks := rest, workers := s.workers.set i WPC.running }
  /-- worker at loop head, active with a non-empty queue whose head is
  expired at `now`: pops it, marks it `TIMEDOUT`, and still under the
  mutex invokes `expireCallback_` and increments `expiredCount_` when
  the callback is set (and drops the task silently otherwise), then
  continues the loop. -/
  | wPopTimedout (s : Impl) (i now : Nat) (t : Task) (rest : List Task) :
      s.workers.get? i = some WPC.inLoop →
      isActive s = true → s.tasks = t :: rest →
      markAtPop t now = TaskState.TIMEDOUT →
      Step s { s with tasks := rest,
                      expiredCount := timedoutAccount s.hasExpireCallback s.expiredCount }
  /-- a worker's `task->run()` returns (or throws, which is swallowed):
  it re-acquires the mutex and continues the loop. -/
  | wFinishTask (s : Impl) (i : Nat) :
      s.workers.get? i = some WPC.running →
      Step s { s with workers := s.workers.set i WPC.inLoop }
  /-- `add` enqueues: state `STARTED` and the queue below its cap (or
  the cap unset), so a new task is appended. -/
  | addEnqueue (s : Impl) (now rid expiration : Nat) :
      s.state = STATE.STARTED →
      (s.pendingTaskCountMax = 0 ∨ s.tasks.length < s.pendingTaskCountMax) →
      Step s { s with tasks := s.tasks ++ [mkTask rid now expiration] }
  /-- `add` at cap: the one-task admission sweep `removeExpired(true)`
  runs (the call then fails or waits without further mutation). -/
  | addSweepAtCap (s : Impl) (now : Nat) :
      s.state = STATE.STARTED →
      0 < s.pendingTaskCountMax → s.pendingTaskCountMax ≤ s.tasks.length →
      Step s (removeExpired s true now).1
  /-- a producer blocked in `add`'s `maxMonitor_` wait loop finds the
  cap cleared (or lifted) and appends its task; the state check
  happened at entry, so no `STARTED` guard applies here. -/
  | addResume (s : Impl) (now rid expiration : Nat) :
      (s.pendingTaskCountMax = 0 ∨ s.tasks.length < s.pendingTaskCountMax) →
      Step s { s with tasks := s.tasks ++ [mkTask rid now expiration] }
  /-- `removeExpiredTasks()`: the full sweep.  The public entry takes
  no lock and checks no state, so it is enabled everywhere. -/
  | removeExpiredTasksStep (s : Impl) (now : Nat) :
      Step s (removeExpiredTasks s now).1
  /-- `removeNextPending()`: pops the queue head when `STARTED`. -/
  | removeNextPendingStep (s : Impl) :
      s.state = STATE.STARTED →
      Step s { s with tasks := s.tasks.tail }
  /-- `remove(task)`: erases the first task whose runnable equals the
  argument, when `STARTED`. -/
  | removeTaskStep (s : Impl) (pre post : List Task) (t : Task) :
      s.state = STATE.STARTED →
      s.tasks = pre ++ t :: post →
      Step s { s with tasks := pre ++ post }

/-- Reachability from the freshly constructed manager. -/
def Reach (s : Impl) : Prop := Relation.ReflTransGen Step implInit s

/-- `totalTaskCount()` as the code computes it on 64-bit `size_t`
values: `tasks_.size() + workerCount_ - idleCount_` with wrap-around
subtraction. -/
def totalTaskCount (m : Impl) : Nat :=
  (m.tasks.length + m.workerCount + (2 ^ 64 - m.idleCount)) % 2 ^ 64

/-! ### Helper lemmas -/

lemma removeExpiredGo_false_eq (now : Nat) :
    ∀ ts : List Task,
      removeExpiredGo false now ts =
        (ts.filter (fun t => !isExpiredTask t now), ts.filter (fun t => isExpiredTask t now)) := by
  intro ts
  induction ts with
  | nil => simp [removeExpiredGo]
  | cons t ts ih =>
    cases hh : isExpiredTask t now <;>
      simp [removeExpiredGo, hh, ih, List.filter_cons]

set_option linter.unnecessarySeqFocus false in
lemma removeExpiredGo_length_le (justOne : Bool) (now : Nat) :
    ∀ ts : List Task, (removeExpiredGo justOne now ts).1.length ≤ ts.length := by
  intro ts
  induction ts with
  | nil => simp [removeExpiredGo]
  | cons t ts ih =>
    cases hh : isExpiredTask t now
    · simpa [removeExpiredGo, hh] using ih
    · cases justOne <;> simp [removeExpiredGo, hh] <;> omega

lemma removeExpired_fields (m : Impl) (justOne : Bool) (now : Nat) :
    ((removeExpired m justOne now).1).state = m.state ∧
    ((removeExpired m justOne now).1).pendingTaskCountMax = m.pendingTaskCountMax ∧
    ((removeExpired m justOne now).1).tasks = (removeExpiredGo justOne now m.tasks).1 ∧
    ((removeExpired m justOne now).1).expiredCount =
      m.expiredCount + (removeExpiredGo justOne now m.tasks).2.length := by
  simp [removeExpired]

/-! ### Claim theorems -/

/-- C6: `removeExpiredTasks` removes exactly the tasks whose deadline
precedes `now` (tasks with no deadline or a deadline at or after `now`
remain, in their original relative order, since the remainder is a
filter of the original queue), invokes `expireCallback` once per
removed task when the callback is set (and not at all otherwise), and
increases `expiredCount` by the number of tasks removed. -/
theorem c6_removeExpiredTasks_spec (m : Impl) (now : Nat) :
    ((removeExpiredTasks m now).1).tasks = m.tasks.filter (fun t => !isExpiredTask t now) ∧
    ((removeExpiredTasks m now).1).expiredCount =
      m.expiredCount + (m.tasks.filter (fun t => isExpiredTask t now)).length ∧
    (removeExpiredTasks m now).2 =
      (if m.hasExpireCallback then
        (m.tasks.filter (fun t => isExpiredTask t now)).map Task.rid
       else []) := by
  simp [removeExpiredTasks, removeExpired, removeExpiredGo_false_eq]

/-- C1 counterexample: with `timeout = -1` and a mutex that is busy for
one more millisecond, the guard acquisition fails (it is a `trylock`,
not a wait), and the same `add` call with `timeout = 0` would have
blocked until the mutex was free (`guardAcquired _ 0 = true`); the
failed acquisition makes `add` fail at once with the backlog error
rather than wait for the mutex, refuting the claim that a negative
timeout still waits for the lock. -/
theorem c1_counterexample :
    ¬(guardAcquired 1 (-1) = true) ∧
    guardAcquired 1 0 = true ∧
    add implInit false (-1) 1 0 0 0 =
      AddOutcome.err ErrKind.tooManyPendingTasks implInit := by
  refine ⟨by decide, by decide, ?_⟩
  simp [add, guardAcquired]

/-- C1 (amended): with `timeout > 0` the acquisition is a `timedlock`
bounded by `timeout` milliseconds; with `timeout == 0` it is a plain
`lock()` that blocks until the mutex is free; with `timeout < 0` it is
a non-blocking `trylock` that succeeds only when the mutex is
immediately free; and whenever acquisition fails, `add` fails with the
backlog-exceeded error. -/
theorem c1_amended (avail : Nat) (timeout : Int) :
    (0 < timeout → (guardAcquired avail timeout = true ↔ (avail : Int) ≤ timeout)) ∧
    guardAcquired avail 0 = true ∧
    (timeout < 0 → (guardAcquired avail timeout = true ↔ avail = 0)) ∧
    (∀ (m : Impl) (c : Bool) (now rid expiration : Nat),
      guardAcquired avail timeout = false →
      add m c timeout avail now rid expiration =
        AddOutcome.err ErrKind.tooManyPendingTasks m) := by
  refine ⟨?_, by simp [guardAcquired], ?_, ?_⟩
  · intro ht
    have h0 : ¬timeout = 0 := by omega
    have h1 : ¬timeout < 0 := by omega
    simp [guardAcquired, h0, h1]
  · intro ht
    have h0 : ¬timeout = 0 := by omega
    simp [guardAcquired, h0, ht]
  · intro m c now rid e hg
    simp [add, hg]

/-- Witness for C1 (amended) at concrete inputs: a mutex free after 3 ms
is acquired under a 5 ms timed lock, and with the mutex busy for 7 ms a
5 ms timed lock fails, making `add` fail with the backlog error. -/
theorem c1_witness :
    guardAcquired 3 5 = true ∧
    add implInit false 5 7 0 0 0 =
      AddOutcome.err ErrKind.tooManyPendingTasks implInit := by
  refine ⟨((c1_amended 3 5).1 (by decide)).mpr (by decide), ?_⟩
  exact (c1_amended 7 5).2.2.2 implInit false 0 0 0 (by decide)

/-- C5: `removeWorker(n)` fails with the invalid-argument error and
leaves `workerMaxCount` unchanged when `n > workerMaxCount`; otherwise
it decrements `workerMaxCount` by exactly `n` and notifies the
waitQueue monitor exactly `n` times when `idleCount > n`, broadcasting
to all waiters otherwise. -/
theorem c5_removeWorker_spec (m : Impl) (n : Nat) :
    (m.workerMaxCount < n → removeWorker m n = ⟨true, m, none⟩) ∧
    (n ≤ m.workerMaxCount →
      removeWorker m n =
        ⟨false, { m with workerMaxCount := m.workerMaxCount - n },
          some (if n < m.idleCount then NotifyAction.notifyN n else NotifyAction.broadcast)⟩ ∧
      (removeWorker m n).m.workerMaxCount + n = m.workerMaxCount) := by
  constructor
  · intro h
    simp [removeWorker, removeWorkersUnderLock, h]
  · intro h
    constructor
    · simp [removeWorker, removeWorkersUnderLock, Nat.not_lt.mpr h]
    · simp [removeWorker, removeWorkersUnderLock, Nat.not_lt.mpr h]
      omega

/-- Witness for C5: removing 2 of 5 workers with 7 idle notifies twice;
removing 2 when only 1 is allowed fails and changes nothing. -/
theorem c5_witness :
    removeWorker { implInit with workerMaxCount := 5, idleCount := 7 } 2 =
      ⟨false, { implInit with workerMaxCount := 3, idleCount := 7 },
        some (NotifyAction.notifyN 2)⟩ ∧
    removeWorker { implInit with workerMaxCount := 1 } 2 =
      ⟨true, { implInit with workerMaxCount := 1 }, none⟩ := by
  constructor
  · have h :=
      ((c5_removeWorker_spec { implInit with workerMaxCount := 5, idleCount := 7 } 2).2
        (by decide)).1
    simpa using h
  · exact (c5_removeWorker_spec { implInit with workerMaxCount := 1 } 2).1 (by decide)

/-- C7 counterexample: a manager that was stopped without a factory
ever being set is reachable, and `start()` on it returns without error
(the `STOPPED` check precedes the factory check), refuting the claim
that `start` fails whenever no `threadFactory` has been set. -/
theorem c7_counterexample :
    Reach { implInit with state := STATE.STOPPED } ∧
    ({ implInit with state := STATE.STOPPED } : Impl).hasThreadFactory = false ∧
    start STATE.STOPPED false = StartOutcome.ret STATE.STOPPED false ∧
    start STATE.STOPPED false ≠ StartOutcome.errNoFactory := by
  refine ⟨?_, rfl, by decide, by decide⟩
  have h1 := Step.stopJoin implInit (by decide) (by decide)
  have h2 := Step.stopComplete
    { implInit with state := STATE.JOINING,
                    workerMaxCount := implInit.workerMaxCount - implInit.workerCount,
                    stoppers := implInit.stoppers + 1 } (by decide) (by decide)
  exact Relation.ReflTransGen.head h1 (Relation.ReflTransGen.single h2)

/-- C7 (amended): `start()` fails for a missing factory only from
`UNINITIALIZED`; on a `STOPPED` manager it returns without error and
without changing the state (even with no factory set); and from
`UNINITIALIZED` with a factory set it assigns `STARTED` and broadcasts
on the state monitor. -/
theorem c7_amended (st : STATE) (factory : Bool) :
    (st = STATE.UNINITIALIZED → factory = false → start st factory = StartOutcome.errNoFactory) ∧
    (st = STATE.STOPPED → start st factory = StartOutcome.ret st false) ∧
    (st = STATE.UNINITIALIZED → factory = true →
      start st factory = StartOutcome.ret STATE.STARTED true) := by
  refine ⟨?_, ?_, ?_⟩
  · intro h hf; subst h; subst hf; decide
  · intro h; subst h; cases factory <;> decide
  · intro h hf; subst h; subst hf; decide

/-- Witness for C7 (amended) at each of its three concrete regimes. -/
theorem c7_witness :
    start STATE.UNINITIALIZED false = StartOutcome.errNoFactory ∧
    start STATE.STOPPED true = StartOutcome.ret STATE.STOPPED false ∧
    start STATE.UNINITIALIZED true = StartOutcome.ret STATE.STARTED true := by
  refine ⟨(c7_amended STATE.UNINITIALIZED false).1 rfl rfl, ?_, ?_⟩
  · exact (c7_amended STATE.STOPPED true).2.1 rfl
  · exact (c7_amended STATE.UNINITIALIZED true).2.2 rfl rfl

/-- C2: in state `STARTED` with a nonzero cap and the queue still at or
above the cap after the one-task admission sweep, `add` with
`timeout = -1` fails with the backlog-exceeded error (whether or not
the trylock wins the mutex) and appends no task: the resulting queue is
the post-sweep queue (or the untouched queue when the trylock fails),
never longer than the original. -/
theorem c2_backlog_failfast (m : Impl) (callerInIdMap : Bool) (avail now rid expiration : Nat)
    (hst : m.state = STATE.STARTED) (hmax : 0 < m.pendingTaskCountMax)
    (hcap : m.pendingTaskCountMax ≤ ((removeExpired m true now).1).tasks.length) :
    add m callerInIdMap (-1) avail now rid expiration =
      AddOutcome.err ErrKind.tooManyPendingTasks
        (if avail = 0 then (removeExpired m true now).1 else m) ∧
    ((removeExpired m true now).1).tasks.length ≤ m.tasks.length := by
  have hlen : ((removeExpired m true now).1).tasks.length ≤ m.tasks.length := by
    simpa [removeExpired] using removeExpiredGo_length_le true now m.tasks
  refine ⟨?_, hlen⟩
  by_cases ha : avail = 0
  · subst ha
    have hb : m.pendingTaskCountMax ≤ m.tasks.length := le_trans hcap hlen
    have hcap' : m.pendingTaskCountMax ≤ (removeExpiredGo true now m.tasks).1.length := by
      simpa [removeExpired] using hcap
    simp [add, guardAcquired, hst, hmax, hb, canSleep, removeExpired, hcap']
  · have hg : guardAcquired avail (-1) = false := by simp [guardAcquired, ha]
    simp [add, hg, ha]

/-- A started manager holding one unexpired task with the queue cap set
to one: a concrete at-cap witness state. -/
def mAtCap : Impl :=
  { implInit with
    state := STATE.STARTED, pendingTaskCountMax := 1, tasks := [⟨3, none⟩] }

/-- Witness for C2: a started manager with cap 1 and one unexpired task
rejects a fail-fast `add` and leaves the queue length at 1. -/
theorem c2_witness :
    mAtCap.state = STATE.STARTED ∧
    add mAtCap false (-1) 0 5 9 0 =
      AddOutcome.err ErrKind.tooManyPendingTasks
        (if (0 : Nat) = 0 then (removeExpired mAtCap true 5).1 else mAtCap) := by
  refine ⟨rfl, ?_⟩
  exact (c2_backlog_failfast mAtCap false 0 5 9 0 rfl (by decide) (by decide)).1

/-- C3: an `add` whose calling thread is one of the manager's workers
(`currentThreadId() ∈ idMap`), made in state `STARTED` while the queue
is still at its nonzero cap after the one-task admission sweep, fails
with the backlog-exceeded error for every value of `timeout` — it never
reaches the `waitMax` monitor wait and never enqueues. -/
theorem c3_worker_caller_failfast (m : Impl) (timeout : Int) (avail now rid expiration : Nat)
    (hst : m.state = STATE.STARTED) (hmax : 0 < m.pendingTaskCountMax)
    (hcap : m.pendingTaskCountMax ≤ ((removeExpired m true now).1).tasks.length) :
    add m true timeout avail now rid expiration =
      AddOutcome.err ErrKind.tooManyPendingTasks
        (if guardAcquired avail timeout = true then (removeExpired m true now).1 else m) := by
  have hlen : ((removeExpired m true now).1).tasks.length ≤ m.tasks.length := by
    simpa [removeExpired] using removeExpiredGo_length_le true now m.tasks
  by_cases hg : guardAcquired avail timeout = true
  · have hb : m.pendingTaskCountMax ≤ m.tasks.length := le_trans hcap hlen
    have hcap' : m.pendingTaskCountMax ≤ (removeExpiredGo true now m.tasks).1.length := by
      simpa [removeExpired] using hcap
    simp [add, hg, hst, hmax, hb, canSleep, removeExpired, hcap']
  · have hg' : guardAcquired avail timeout = false := by
      cases h : guardAcquired avail timeout
      · rfl
      · exact absurd h hg
    simp [add, hg', hg]

/-- Witness for C3: a worker-thread `add` with blocking timeout 0 on a
started manager at cap fails instead of waiting. -/
theorem c3_witness :
    0 < mAtCap.pendingTaskCountMax ∧
    add mAtCap true 0 0 5 9 0 =
      AddOutcome.err ErrKind.tooManyPendingTasks
        (if guardAcquired 0 0 = true then (removeExpired mAtCap true 5).1 else mAtCap) := by
  refine ⟨by decide, ?_⟩
  exact c3_worker_caller_failfast mAtCap 0 0 5 9 0 rfl (by decide) (by decide)

/-- C10: with an unbounded queue (`pendingTaskCountMax = 0`) in state
`STARTED`, once the mutex is acquired `add` never fails with the
backlog error and performs no admission sweep, for every timeout value
and every caller: it appends exactly one task at the tail, leaving all
other fields (in particular `expiredCount`) unchanged. -/
theorem c10_unbounded_add (m : Impl) (callerInIdMap : Bool) (timeout : Int)
    (avail now rid expiration : Nat)
    (hmax : m.pendingTaskCountMax = 0) (hst : m.state = STATE.STARTED)
    (hg : guardAcquired avail timeout = true) :
    add m callerInIdMap timeout avail now rid expiration =
      AddOutcome.enqueued { m with tasks := m.tasks ++ [mkTask rid now expiration] } := by
  simp [add, hg, hst, hmax]

/-- A started manager with no cap and an empty queue. -/
def mStarted : Impl := { implInit with state := STATE.STARTED }

/-- Witness for C10: an unbounded started manager enqueues from a
worker thread with a negative timeout (mutex free) and from a producer
with a positive timeout. -/
theorem c10_witness :
    add mStarted true (-1) 0 4 9 6 =
      AddOutcome.enqueued { mStarted with tasks := [⟨9, some 10⟩] } ∧
    add mStarted false 250 100 4 9 0 =
      AddOutcome.enqueued { mStarted with tasks := [⟨9, none⟩] } := by
  constructor
  · have h := c10_unbounded_add mStarted true (-1) 0 4 9 6 rfl rfl (by decide)
    simpa [mkTask, mStarted] using h
  · have h := c10_unbounded_add mStarted false 250 100 4 9 0 rfl rfl (by decide)
    simpa [mkTask, mStarted] using h

/-! ### State-machine invariants -/

/-- The states the manager's `state_` field can actually hold. -/
def StOK (s : Impl) : Prop :=
  s.state = STATE.UNINITIALIZED ∨ s.state = STATE.STARTED ∨
    s.state = STATE.JOINING ∨ s.state = STATE.STOPPED

/-- While some `stop` caller is between its `JOINING` assignment and
its final `STOPPED` assignment, the state is `JOINING` or `STOPPED`. -/
def StopInv (s : Impl) : Prop :=
  0 < s.stoppers → (s.state = STATE.JOINING ∨ s.state = STATE.STOPPED)

/-- The transitions the `state_` field actually performs: stay put,
`UNINITIALIZED → STARTED` (start), `UNINITIALIZED/STARTED → JOINING`
(stop), or re-assignment of `STOPPED` from `JOINING` or `STOPPED`. -/
def EdgeOK (a b : STATE) : Prop :=
  b = a ∨ (a = STATE.UNINITIALIZED ∧ b = STATE.STARTED) ∨
    ((a = STATE.UNINITIALIZED ∨ a = STATE.STARTED) ∧ b = STATE.JOINING) ∨
    ((a = STATE.JOINING ∨ a = STATE.STOPPED) ∧ b = STATE.STOPPED)

lemma StOK_of_eq {s s' : Impl} (h : s'.state = s.state) (hok : StOK s) : StOK s' := by
  unfold StOK at hok ⊢
  rw [h]
  exact hok

lemma StopInv_of_eq {s s' : Impl} (hst : s'.state = s.state)
    (hsc : s'.stoppers = s.stoppers) (hsp : StopInv s) : StopInv s' := by
  unfold StopInv at hsp ⊢
  rw [hst, hsc]
  exact hsp

lemma step_preserves_inv {s s' : Impl} (h : Step s s')
    (hok : StOK s) (hsp : StopInv s) : StOK s' ∧ StopInv s' := by
  cases h with
  | startBegin hU hf =>
    refine ⟨Or.inr (Or.inl rfl), fun hpos => ?_⟩
    rcases hsp hpos with h | h <;> rw [hU] at h <;> simp at h
  | stopNoop hg => exact ⟨Or.inr (Or.inr (Or.inr rfl)), fun _ => Or.inr rfl⟩
  | stopJoin hg hwc => exact ⟨Or.inr (Or.inr (Or.inl rfl)), fun _ => Or.inl rfl⟩
  | stopJoinThrow hg hwc => exact ⟨Or.inr (Or.inr (Or.inl rfl)), fun _ => Or.inl rfl⟩
  | stopComplete hpos hwc => exact ⟨Or.inr (Or.inr (Or.inr rfl)), fun _ => Or.inr rfl⟩
  | _ =>
    refine ⟨StOK_of_eq ?_ hok, StopInv_of_eq ?_ ?_ hsp⟩ <;> rfl

lemma reach_inv {s : Impl} (h : Reach s) : StOK s ∧ StopInv s := by
  induction h with
  | refl => exact ⟨Or.inl rfl, fun hpos => absurd hpos (by decide)⟩
  | tail _ hstep ih => exact step_preserves_inv hstep ih.1 ih.2

lemma step_edges {s s' : Impl} (h : Step s s')
    (hok : StOK s) (hsp : StopInv s) : EdgeOK s.state s'.state := by
  cases h with
  | startBegin hU hf => exact Or.inr (Or.inl ⟨hU, rfl⟩)
  | stopNoop hg =>
    rcases hg with h | h | h
    · rcases hok with h' | h' | h' | h' <;> rw [h'] at h <;> simp at h
    · exact Or.inr (Or.inr (Or.inr ⟨Or.inl h, rfl⟩))
    · exact Or.inr (Or.inr (Or.inr ⟨Or.inr h, rfl⟩))
  | stopJoin hg hwc =>
    rcases hok with h' | h' | h' | h'
    · exact Or.inr (Or.inr (Or.inl ⟨Or.inl h', rfl⟩))
    · exact Or.inr (Or.inr (Or.inl ⟨Or.inr h', rfl⟩))
    · exact absurd (Or.inr (Or.inl h')) hg
    · exact absurd (Or.inr (Or.inr h')) hg
  | stopJoinThrow hg hwc =>
    rcases hok with h' | h' | h' | h'
    · exact Or.inr (Or.inr (Or.inl ⟨Or.inl h', rfl⟩))
    · exact Or.inr (Or.inr (Or.inl ⟨Or.inr h', rfl⟩))
    · exact absurd (Or.inr (Or.inl h')) hg
    · exact absurd (Or.inr (Or.inr h')) hg
  | stopComplete hpos hwc =>
    rcases hsp hpos with h | h
    · exact Or.inr (Or.inr (Or.inr ⟨Or.inl h, rfl⟩))
    · exact Or.inr (Or.inr (Or.inr ⟨Or.inr h, rfl⟩))
  | _ => exact Or.inl (show _ = s.state from rfl)

/-- C9 counterexample: `stop()` on a freshly constructed (never
started) manager assigns `JOINING` directly from `UNINITIALIZED`, a
transition absent from the claimed chain
`UNINITIALIZED → STARTED → JOINING → STOPPED`. -/
theorem c9_counterexample :
    implInit.state = STATE.UNINITIALIZED ∧
    Step implInit
      { implInit with state := STATE.JOINING, workerMaxCount := 0, stoppers := 1 } ∧
    ({ implInit with state := STATE.JOINING, workerMaxCount := 0, stoppers := 1 } : Impl).state =
      STATE.JOINING := by
  exact ⟨rfl, Step.stopJoin implInit (by decide) (by decide), rfl⟩

/-- C9 (amended): in every reachable state the `state` field is one of
`UNINITIALIZED`, `STARTED`, `JOINING`, `STOPPED` — `STARTING` and
`STOPPING` are never assigned, so the wait-while-`STARTING` loop in
`start` is never entered — and every transition follows the machine
`UNINITIALIZED → STARTED → JOINING → STOPPED` extended with the direct
edge `UNINITIALIZED → JOINING` (stop before start), with `STOPPED`
terminal. -/
theorem c9_amended (s s' : Impl) (hr : Reach s) :
    StOK s ∧
    s.state ≠ STATE.STARTING ∧ s.state ≠ STATE.STOPPING ∧
    start s.state s.hasThreadFactory ≠ StartOutcome.waitsStarting ∧
    (Step s s' → EdgeOK s.state s'.state ∧
      (s.state = STATE.STOPPED → s'.state = STATE.STOPPED)) := by
  obtain ⟨hok, hsp⟩ := reach_inv hr
  refine ⟨hok, ?_, ?_, ?_, ?_⟩
  · rcases hok with h | h | h | h <;> simp [h]
  · rcases hok with h | h | h | h <;> simp [h]
  · rcases hok with h | h | h | h <;>
      cases hf : s.hasThreadFactory <;> simp [start, h]
  · intro hstep
    have hedge := step_edges hstep hok hsp
    refine ⟨hedge, fun hstop => ?_⟩
    rcases hedge with h | h | h | h
    · rw [h, hstop]
    · rw [hstop] at h; simp at h
    · rcases h.1 with h' | h' <;> rw [hstop] at h' <;> simp at h'
    · exact h.2

/-- Witness for C9 (amended) at the initial state and its first
possible step. -/
theorem c9_witness :
    StOK implInit ∧
    EdgeOK implInit.state ({ implInit with hasThreadFactory := true } : Impl).state := by
  have h := c9_amended implInit { implInit with hasThreadFactory := true }
    Relation.ReflTransGen.refl
  exact ⟨h.1, (h.2.2.2.2 (Step.setFactory implInit)).1⟩

/-- C4 counterexample: a reachable started manager with one worker, one
expired task and no expire callback; the worker dequeues the task,
marks it `TIMEDOUT` and drops it, yet `expiredCount` stays 0 where the
claim demands an increment of one regardless of the callback. -/
def c4state : Impl :=
  { implInit with
    state := STATE.STARTED, workerCount := 1, workerMaxCount := 1,
    hasThreadFactory := true, tasks := [⟨7, some 1⟩], workers := [WPC.inLoop] }

/-- C4 counterexample theorem: the expired-task drop at dequeue time
with no callback set leaves `expiredCount` unchanged. -/
theorem c4_counterexample :
    Reach c4state ∧ c4state.hasExpireCallback = false ∧
    Step c4state { c4state with tasks := [] } ∧
    ({ c4state with tasks := [] } : Impl).expiredCount = 0 ∧
    c4state.expiredCount = 0 := by
  refine ⟨?_, rfl, ?_, rfl, rfl⟩
  · refine Relation.ReflTransGen.head (Step.setFactory implInit) ?_
    refine Relation.ReflTransGen.head
      (Step.startBegin { implInit with hasThreadFactory := true } rfl rfl) ?_
    refine Relation.ReflTransGen.head
      (Step.addWorkerBegin
        { implInit with hasThreadFactory := true, state := STATE.STARTED } 1 rfl) ?_
    refine Relation.ReflTransGen.head
      (Step.wEnterActive
        { implInit with
          hasThreadFactory := true, state := STATE.STARTED, workerMaxCount := 1,
          workers := [WPC.spawned] } 0 (by decide) (by decide)) ?_
    exact Relation.ReflTransGen.single
      (Step.addEnqueue
        { implInit with
          hasThreadFactory := true, state := STATE.STARTED, workerMaxCount := 1,
          workerCount := 1, workers := [WPC.inLoop] } 0 7 1 rfl (Or.inl rfl))
  · exact Step.wPopTimedout c4state 0 2 ⟨7, some 1⟩ [] rfl (by decide) rfl (by decide)

set_option linter.unnecessarySeqFocus false in
/-- C4 (amended): `expiredCount` never decreases across any step of the
system; every task removed by a sweep (`removeExpired`, whether the
full sweep or the one-task admission sweep) increments it by exactly
one per removed task regardless of the callback; but a task marked
`TIMEDOUT` by a worker at dequeue time increments it only when
`expireCallback` is set, and is dropped without accounting otherwise. -/
theorem c4_amended :
    (∀ s s' : Impl, Step s s' → s.expiredCount ≤ s'.expiredCount) ∧
    (∀ (m : Impl) (justOne : Bool) (now : Nat),
      ((removeExpired m justOne now).1).expiredCount =
        m.expiredCount + (removeExpiredGo justOne now m.tasks).2.length) ∧
    (∀ e : Nat, timedoutAccount true e = e + 1 ∧ timedoutAccount false e = e) := by
  refine ⟨?_, ?_, ?_⟩
  · intro s s' h
    cases h <;> try exact le_rfl
    case wPopTimedout i now t rest h1 h2 h3 h4 =>
      cases hcb : s.hasExpireCallback <;> simp [timedoutAccount, hcb]
    case addSweepAtCap now h1 h2 h3 => simp [removeExpired]
    case removeExpiredTasksStep now => simp [removeExpiredTasks, removeExpired]
  · intro m justOne now; simp [removeExpired]
  · intro e; exact ⟨rfl, rfl⟩

/-- Witness for C4 (amended): monotonicity across a concrete step and
the two callback regimes of the dequeue-time accounting. -/
theorem c4_witness :
    implInit.expiredCount ≤ ({ implInit with hasThreadFactory := true } : Impl).expiredCount ∧
    timedoutAccount true 5 = 6 ∧ timedoutAccount false 5 = 5 :=
  ⟨c4_amended.1 implInit { implInit with hasThreadFactory := true } (Step.setFactory implInit),
   (c4_amended.2.2 5).1, (c4_amended.2.2 5).2⟩

/-- C8: the final state of the violating trace — two workers idle, a
third worker admitted after `removeWorker` stripped all capacity has
decremented `workerCount_` it never incremented. -/
def c8final : Impl :=
  { implInit with
    state := STATE.STARTED, workerCount := dec64 2, workerMaxCount := 0,
    idleCount := 2, hasThreadFactory := true,
    workers := [WPC.idleWaiting, WPC.idleWaiting, WPC.dead] }

/-- C8: a reachable state violates `idleCount ≤ workerCount`: with two
idle workers (workerCount 2), `addWorker(1)` spawns a third worker and
blocks at its barrier; `removeWorker(3)` then removes all capacity and
blocks at its own barrier; the spawned worker finally enters its run
loop, fails its admission check (`workerCount ≥ workerMaxCount`) and
performs the exit accounting `--workerCount_` without ever having
incremented it, leaving `idleCount = 2 > workerCount = 1`, and
`totalTaskCount()`'s `size_t` subtraction underflows. -/
theorem c8_idle_exceeds_workers :
    Reach c8final ∧ c8final.idleCount = 2 ∧ c8final.workerCount = 1 ∧
    c8final.workerCount < c8final.idleCount ∧
    totalTaskCount c8final = 2 ^ 64 - 1 := by
  refine ⟨?_, rfl, by decide, by decide, by decide⟩
  refine Relation.ReflTransGen.head (Step.setFactory implInit) ?_
  refine Relation.ReflTransGen.head
    (Step.startBegin { implInit with hasThreadFactory := true } rfl rfl) ?_
  refine Relation.ReflTransGen.head
    (Step.addWorkerBegin
      { implInit with hasThreadFactory := true, state := STATE.STARTED } 2 rfl) ?_
  refine Relation.ReflTransGen.head
    (Step.wEnterActive
      { implInit with
        hasThreadFactory := true, state := STATE.STARTED, workerMaxCount := 2,
        workers := [WPC.spawned, WPC.spawned] } 0 (by decide) (by decide)) ?_
  refine Relation.ReflTransGen.head
    (Step.wGoIdle
      { implInit with
        hasThreadFactory := true, state := STATE.STARTED, workerMaxCount := 2,
        workerCount := 1, workers := [WPC.inLoop, WPC.spawned] } 0
      (by decide) (by decide) rfl) ?_
  refine Relation.ReflTransGen.head
    (Step.wEnterActive
      { implInit with
        hasThreadFactory := true, state := STATE.STARTED, workerMaxCount := 2,
        workerCount := 1, idleCount := 1,
        workers := [WPC.idleWaiting, WPC.spawned] } 1 (by decide) (by decide)) ?_
  refine Relation.ReflTransGen.head
    (Step.wGoIdle
      { implInit with
        hasThreadFactory := true, state := STATE.STARTED, workerMaxCount := 2,
        workerCount := 2, idleCount := 1,
        workers := [WPC.idleWaiting, WPC.inLoop] } 1 (by decide) (by decide) rfl) ?_
  refine Relation.ReflTransGen.head
    (Step.addWorkerBegin
      { implInit with
        hasThreadFactory := true, state := STATE.STARTED, workerMaxCount := 2,
        workerCount := 2, idleCount := 2,
        workers := [WPC.idleWaiting, WPC.idleWaiting] } 1 rfl) ?_
  refine Relation.ReflTransGen.head
    (Step.removeWorkerBegin
      { implInit with
        hasThreadFactory := true, state := STATE.STARTED, workerMaxCount := 3,
        workerCount := 2, idleCount := 2,
        workers := [WPC.idleWaiting, WPC.idleWaiting, WPC.spawned] } 3 (by decide)) ?_
  exact Relation.ReflTransGen.single
    (Step.wEnterInactive
      { implInit with
        hasThreadFactory := true, state := STATE.STARTED, workerMaxCount := 0,
        workerCount := 2, idleCount := 2,
        workers := [WPC.idleWaiting, WPC.idleWaiting, WPC.spawned] } 2
      (by decide) (by decide))

end ThreadManager
